import Mathlib

/-!
Verification of the anax Agreement Bot Core against its specification.

The development shallowly embeds the Go sources:
* the Pattern Manager (`pattern.go`, given as `src/unnamed/part_001`),
* the Citizen Scientist consumer protocol handler (`cs_protocol.go`,
  given as `src/unnamed/part_000`),
* `cutil.GenerateAgreementId` (`src/cutil/cutil.go`).

Go maps are embedded as association lists (`lookupA` / `setA` / `eraseA`);
external collaborators (the `policy` file helpers, `exchange` conversions,
`json.Marshal`, `sha3.Sum256`, the clock) are parameters collected in an
environment structure, so every embedded function is a pure function of its
inputs and that environment.  File-system side effects are reified as an
event trace.
-/

deriving instance DecidableEq for Except

namespace Anax

/-! ### Association lists standing for Go maps (string keyed) -/

def lookupA {α : Type} : List (String × α) → String → Option α
  | [], _ => none
  | (k, v) :: rest, key => if k = key then some v else lookupA rest key

def setA {α : Type} : List (String × α) → String → α → List (String × α)
  | [], key, val => [(key, val)]
  | (k, v) :: rest, key, val =>
      if k = key then (k, val) :: rest else (k, v) :: setA rest key val

def eraseA {α : Type} : List (String × α) → String → List (String × α)
  | [], _ => []
  | (k, v) :: rest, key =>
      if k = key then eraseA rest key else (k, v) :: eraseA rest key

theorem lookupA_setA_self {α : Type} (l : List (String × α)) (k : String) (v : α) :
    lookupA (setA l k v) k = some v := by
  induction l with
  | nil => simp [setA, lookupA]
  | cons hd tl ih =>
      obtain ⟨k', v'⟩ := hd
      by_cases h : k' = k
      · simp [setA, h, lookupA]
      · simp [setA, h, lookupA, ih]

theorem lookupA_setA_ne {α : Type} (l : List (String × α)) (k k' : String) (v : α)
    (h : k ≠ k') : lookupA (setA l k v) k' = lookupA l k' := by
  induction l with
  | nil => simp [setA, lookupA, h]
  | cons hd tl ih =>
      obtain ⟨k0, v0⟩ := hd
      by_cases h0 : k0 = k
      · subst h0
        simp [setA, lookupA, h]
      · simp [setA, h0, lookupA, ih]

theorem lookupA_eraseA {α : Type} (l : List (String × α)) (k k' : String) :
    lookupA (eraseA l k) k' = if k = k' then none else lookupA l k' := by
  induction l with
  | nil => simp [eraseA, lookupA]
  | cons hd tl ih =>
      obtain ⟨k0, v0⟩ := hd
      by_cases h0 : k0 = k
      · subst h0
        by_cases h1 : k0 = k'
        · subst h1
          simp [eraseA, ih]
        · simp [eraseA, lookupA, h1, ih]
      · by_cases h1 : k0 = k'
        · subst h1
          have hk : ¬ k = k0 := fun h => h0 h.symm
          simp [eraseA, h0, lookupA, hk]
        · simp [eraseA, h0, lookupA, h1, ih]

/-! ### Pattern Manager (src/unnamed/part_001)

The exchange `Pattern` document and the generated `Policy` documents are
opaque to the Pattern Manager; they are embedded as wrappers around their
JSON text / policy header name.  The external collaborators
(`json.Marshal`, `sha3.Sum256`, `exchange.GetId`,
`exchange.ConvertToPolicies`, the `policy` file helpers and the clock) are
parameters collected in `PMEnv`.  File-system effects are reified in the
`FsEvent` trace returned next to each new state. -/

structure Pattern where
  jsonData : String
deriving DecidableEq, Repr

structure Policy where
  headerName : String
deriving DecidableEq, Repr

/-- Embeds the Go struct `PatternEntry`.  The Go `Pattern` field is a
pointer that is never nil for a materialized entry; it is embedded by
value. -/
structure PatternEntry where
  Pattern : Pattern
  Updated : Nat
  Hash : List Nat
  PolicyFileNames : List String
deriving DecidableEq, Repr

/-- File-system side effects of the Pattern Manager, reified as a trace. -/
inductive FsEvent where
  | deleteOrgFiles (org : String)
  | deletePatternFiles (org pat : String)
  | deleteFile (name : String)
  | createFile (name : String)
deriving DecidableEq, Repr

/-- External collaborators of the Pattern Manager (all outside src): JSON
marshalling, SHA3-256, `exchange.GetId`, `exchange.ConvertToPolicies`, the
`policy` package file helpers and the wall clock. -/
structure PMEnv where
  marshal : Pattern → Except String String
  sha3Sum256 : String → List Nat
  getId : String → String
  convertToPolicies : String → Pattern → Except String (List Policy)
  createPolicyFile : String → String → String → Policy → Except String String
  deletePolicyFile : String → Except String Unit
  deletePolicyFilesForOrg : String → String → Bool → Except String Unit
  deletePolicyFilesForPattern : String → String → String → Except String Unit
  nowUnix : Nat

/-- Embeds `hashPattern`: marshal the pattern to JSON and take the
SHA3-256 digest. -/
def hashPattern (env : PMEnv) (p : Pattern) : Except String (List Nat) :=
  match env.marshal p with
  | .error e => .error ("unable to marshal pattern to a string, error " ++ e)
  | .ok ps => .ok (env.sha3Sum256 ps)

/-- Embeds `NewPatternEntry`. -/
def newPatternEntry (env : PMEnv) (p : Pattern) : Except String PatternEntry :=
  match hashPattern env p with
  | .error e => .error e
  | .ok h =>
      .ok { Pattern := p, Updated := env.nowUnix, Hash := h, PolicyFileNames := [] }

/-- Embeds `PatternEntry.AddPolicyFileName`. -/
def addPolicyFileName (pe : PatternEntry) (fileName : String) : PatternEntry :=
  { pe with PolicyFileNames := pe.PolicyFileNames ++ [fileName] }

/-- Embeds the loop body of `PatternEntry.DeleteAllPolicyFiles`: delete
each policy file in turn, stopping at the first error. -/
def deleteAllPolicyFiles (env : PMEnv) : List String → List FsEvent × Option String
  | [] => ([], none)
  | f :: fs =>
      match env.deletePolicyFile f with
      | .error e => ([.deleteFile f], some e)
      | .ok _ =>
          let r := deleteAllPolicyFiles env fs
          (.deleteFile f :: r.1, r.2)

/-- Embeds `PatternEntry.UpdateEntry`: replace the pattern and the hash
together, stamp the time and reset the generated-file list. -/
def updateEntry (env : PMEnv) (pe : PatternEntry) (pattern : Pattern)
    (newHash : List Nat) : PatternEntry :=
  { pe with
    Pattern := pattern
    Hash := newHash
    Updated := env.nowUnix
    PolicyFileNames := [] }

/-- Embeds the creation loop of `createPolicyFiles`: one policy file per
converted policy; a failure aborts, keeping the file names added so far. -/
def createPolicyFilesLoop (env : PMEnv) (policyPath org : String)
    (pe : PatternEntry) : List Policy → PatternEntry × List FsEvent × Option String
  | [] => (pe, [], none)
  | pol :: rest =>
      match env.createPolicyFile policyPath org pol.headerName pol with
      | .error e => (pe, [], some ("error creating policy file, error " ++ e))
      | .ok fileName =>
          let r := createPolicyFilesLoop env policyPath org
            (addPolicyFileName pe fileName) rest
          (r.1, .createFile fileName :: r.2.1, r.2.2)

/-- Embeds `createPolicyFiles`: convert the pattern to policies and write
one policy file per policy. -/
def createPolicyFiles (env : PMEnv) (pe : PatternEntry) (patternId : String)
    (pattern : Pattern) (policyPath org : String) :
    PatternEntry × List FsEvent × Option String :=
  match env.convertToPolicies patternId pattern with
  | .error e => (pe, [], some ("error converting pattern to policies, error " ++ e))
  | .ok pols => createPolicyFilesLoop env policyPath org pe pols

/-- Embeds the Go struct `PatternManager`: a map of maps, org then pattern
name, holding a possibly-nil `PatternEntry` pointer. -/
structure PatternManager where
  OrgPatterns : List (String × List (String × Option PatternEntry))
deriving DecidableEq, Repr

/-- Embeds `NewPatternManager`. -/
def newPatternManager : PatternManager := { OrgPatterns := [] }

/-- Embeds `PatternManager.hasOrg`. -/
def hasOrg (pm : PatternManager) (org : String) : Bool :=
  (lookupA pm.OrgPatterns org).isSome

/-- Embeds `PatternManager.hasPattern`. -/
def hasPattern (pm : PatternManager) (org pattern : String) : Bool :=
  match lookupA pm.OrgPatterns org with
  | some orgMap => (lookupA orgMap pattern).isSome
  | none => false

/-- Lookup of the (possibly nil) entry pointer stored for an org/pattern
pair; `none` when the org or the pattern is not in the manager. -/
def getEntry (pm : PatternManager) (org pattern : String) :
    Option (Option PatternEntry) :=
  match lookupA pm.OrgPatterns org with
  | some orgMap => lookupA orgMap pattern
  | none => none

/-- Store an entry pointer for an org/pattern pair (Go map assignment
`pm.OrgPatterns[org][pattern] = pe`). -/
def setEntry (pm : PatternManager) (org pattern : String)
    (pe : Option PatternEntry) : PatternManager :=
  match lookupA pm.OrgPatterns org with
  | some orgMap => { OrgPatterns := setA pm.OrgPatterns org (setA orgMap pattern pe) }
  | none => { OrgPatterns := setA pm.OrgPatterns org (setA [] pattern pe) }

/-- Embeds `PatternManager.deleteOrg`.  A file-system error is logged and
dropped; the Go function always returns nil. -/
def deleteOrg (env : PMEnv) (pm : PatternManager) (policyPath org : String) :
    PatternManager × List FsEvent × Option String :=
  let _ := env.deletePolicyFilesForOrg policyPath org true
  ({ OrgPatterns := eraseA pm.OrgPatterns org }, [.deleteOrgFiles org], none)

/-- Embeds `PatternManager.deletePattern`.  A file-system error is logged
and dropped; the Go function always returns nil. -/
def deletePattern (env : PMEnv) (pm : PatternManager)
    (policyPath org pattern : String) :
    PatternManager × List FsEvent × Option String :=
  let _ := env.deletePolicyFilesForPattern policyPath org pattern
  let pm1 : PatternManager :=
    match lookupA pm.OrgPatterns org with
    | some orgMap => { OrgPatterns := setA pm.OrgPatterns org (eraseA orgMap pattern) }
    | none => pm
  (pm1, [.deletePatternFiles org pattern], none)

/-- Embeds `exchange.ServedPattern` (only the `Org` and `Pattern` fields
are read by the Pattern Manager). -/
structure ServedPattern where
  Org : String
  Pattern : String
deriving DecidableEq, Repr

/-- Embeds the first loop of `SetCurrentPatterns`: build the new map of
maps from the served list, copying existing entries and marking new
patterns with a nil entry. -/
def buildNewMap (pm : PatternManager) :
    List ServedPattern → List (String × List (String × Option PatternEntry)) →
    List (String × List (String × Option PatternEntry))
  | [], acc => acc
  | sp :: rest, acc =>
      let acc1 := if (lookupA acc sp.Org).isSome then acc else setA acc sp.Org []
      let value : Option PatternEntry :=
        if hasPattern pm sp.Org sp.Pattern then
          (getEntry pm sp.Org sp.Pattern).getD none
        else none
      let acc2 := setA acc1 sp.Org (setA ((lookupA acc1 sp.Org).getD []) sp.Pattern value)
      buildNewMap pm rest acc2

/-- Embeds the inner pattern loop of the second phase of
`SetCurrentPatterns`: delete every pattern of an old org map that is
absent from the new map. -/
def scanPatternDeletes (env : PMEnv) (policyPath org : String)
    (newOrgMap : List (String × Option PatternEntry)) :
    List String → PatternManager → PatternManager × List FsEvent × Option String
  | [], pm => (pm, [], none)
  | pat :: rest, pm =>
      if (lookupA newOrgMap pat).isSome then
        scanPatternDeletes env policyPath org newOrgMap rest pm
      else
        let r := deletePattern env pm policyPath org pat
        match r.2.2 with
        | some e => (r.1, r.2.1, some e)
        | none =>
            let r2 := scanPatternDeletes env policyPath org newOrgMap rest r.1
            (r2.1, r.2.1 ++ r2.2.1, r2.2.2)

/-- Embeds the second phase of `SetCurrentPatterns`: every org of the old
state that is absent from the new map is deleted with all its policy
files, and surviving orgs shed patterns absent from the new map. -/
def scanOrgDeletes (env : PMEnv) (policyPath : String)
    (newMap : List (String × List (String × Option PatternEntry))) :
    List (String × List (String × Option PatternEntry)) → PatternManager →
    PatternManager × List FsEvent × Option String
  | [], pm => (pm, [], none)
  | (org, orgMap) :: rest, pm =>
      match lookupA newMap org with
      | none =>
          let r := deleteOrg env pm policyPath org
          match r.2.2 with
          | some e => (r.1, r.2.1, some e)
          | none =>
              let r2 := scanOrgDeletes env policyPath newMap rest r.1
              (r2.1, r.2.1 ++ r2.2.1, r2.2.2)
      | some newOrgMap =>
          let r := scanPatternDeletes env policyPath org newOrgMap (orgMap.map Prod.fst) pm
          match r.2.2 with
          | some e => (r.1, r.2.1, some e)
          | none =>
              let r2 := scanOrgDeletes env policyPath newMap rest r.1
              (r2.1, r.2.1 ++ r2.2.1, r2.2.2)

/-- Embeds `PatternManager.SetCurrentPatterns`.  The Go servedPatterns map
is embedded as the list of its values, the only part the function reads. -/
def setCurrentPatterns (env : PMEnv) (pm : PatternManager)
    (servedPatterns : List ServedPattern) (policyPath : String) :
    PatternManager × List FsEvent × Option String :=
  if pm.OrgPatterns.isEmpty && servedPatterns.isEmpty then (pm, [], none)
  else
    let newMap := buildNewMap pm servedPatterns []
    let r := scanOrgDeletes env policyPath newMap pm.OrgPatterns pm
    match r.2.2 with
    | some e => (r.1, r.2.1, some e)
    | none => ({ OrgPatterns := newMap }, r.2.1, none)

/-- True when some defined pattern id has the given pattern name as its id
part; embeds the `found` search of `UpdatePatternPolicies`. -/
def foundInDefs (env : PMEnv) (defs : List (String × Pattern)) (pattern : String) : Bool :=
  defs.any (fun d => env.getId d.1 == pattern)

/-- Embeds the deletion loop of `UpdatePatternPolicies`: drop every
pattern of the org that no longer exists on the exchange. -/
def updateDeleteMissing (env : PMEnv) (policyPath org : String)
    (defs : List (String × Pattern)) :
    List String → PatternManager → PatternManager × List FsEvent × Option String
  | [], pm => (pm, [], none)
  | pat :: rest, pm =>
      if foundInDefs env defs pat then
        updateDeleteMissing env policyPath org defs rest pm
      else
        let r := deletePattern env pm policyPath org pat
        match r.2.2 with
        | some e => (r.1, r.2.1, some e)
        | none =>
            let r2 := updateDeleteMissing env policyPath org defs rest r.1
            (r2.1, r.2.1 ++ r2.2.1, r2.2.2)

/-- Embeds the main loop of `UpdatePatternPolicies` over the defined
patterns.  Entries are stored in the map before their policy files are
created, mirroring the Go pointer assignment that precedes
`createPolicyFiles`; on a creation failure the partially filled entry
stays in the map and the error is returned. -/
def updateDefsLoop (env : PMEnv) (policyPath org : String) :
    List (String × Pattern) → PatternManager → PatternManager × List FsEvent × Option String
  | [], pm => (pm, [], none)
  | (patternId, pattern) :: rest, pm =>
      match getEntry pm org (env.getId patternId) with
      | none => updateDefsLoop env policyPath org rest pm
      | some none =>
          match newPatternEntry env pattern with
          | .error e => (pm, [], some ("unable to create pattern entry, error " ++ e))
          | .ok npe =>
              let c := createPolicyFiles env npe patternId pattern policyPath org
              let pm1 := setEntry pm org (env.getId patternId) (some c.1)
              match c.2.2 with
              | some e => (pm1, c.2.1, some ("unable to create policy files, error " ++ e))
              | none =>
                  let r := updateDefsLoop env policyPath org rest pm1
                  (r.1, c.2.1 ++ r.2.1, r.2.2)
      | some (some pe) =>
          match hashPattern env pattern with
          | .error e => (pm, [], some ("unable to hash pattern, error " ++ e))
          | .ok newHash =>
              if pe.Hash = newHash then updateDefsLoop env policyPath org rest pm
              else
                let d := deleteAllPolicyFiles env pe.PolicyFileNames
                match d.2 with
                | some e => (pm, d.1, some ("unable to delete policy files, error " ++ e))
                | none =>
                    let pe1 := updateEntry env pe pattern newHash
                    let c := createPolicyFiles env pe1 patternId pattern policyPath org
                    let pm1 := setEntry pm org (env.getId patternId) (some c.1)
                    match c.2.2 with
                    | some e =>
                        (pm1, d.1 ++ c.2.1,
                          some ("unable to create policy files, error " ++ e))
                    | none =>
                        let r := updateDefsLoop env policyPath org rest pm1
                        (r.1, d.1 ++ c.2.1 ++ r.2.1, r.2.2)

/-- Embeds `PatternManager.UpdatePatternPolicies`.  The Go definedPatterns
map is embedded as its association list. -/
def updatePatternPolicies (env : PMEnv) (pm : PatternManager) (org : String)
    (definedPatterns : List (String × Pattern)) (policyPath : String) :
    PatternManager × List FsEvent × Option String :=
  if hasOrg pm org then
    if definedPatterns.isEmpty then deleteOrg env pm policyPath org
    else
      let keys := ((lookupA pm.OrgPatterns org).getD []).map Prod.fst
      let r := updateDeleteMissing env policyPath org definedPatterns keys pm
      match r.2.2 with
      | some e => (r.1, r.2.1, some e)
      | none =>
          let r2 := updateDefsLoop env policyPath org definedPatterns r.1
          (r2.1, r.2.1 ++ r2.2.1, r2.2.2)
  else (pm, [], some ("org " ++ org ++ " not found in pattern manager"))

/-! ### Citizen Scientist consumer protocol handler (src/unnamed/part_000)

The ledger client registry `bcState` is a three-level map, org then ledger
type then instance name, embedded as nested association lists.  Protocol
handler objects are opaque; only their identity matters, so they are
embedded as the `ProtocolHandlerRef` tag type (`generic` for the handler
created at construction, `bound` for the per-client handlers created by
`SetBlockchainWritable`). -/

inductive ProtocolHandlerRef where
  | generic
  | bound (id : Nat)
deriving DecidableEq, Repr

/-- Embeds the Go struct `BlockchainState`. -/
structure BlockchainState where
  ready : Bool
  writable : Bool
  service : String
  servicePort : String
  colonusDir : String
  agreementPH : ProtocolHandlerRef
deriving DecidableEq, Repr

/-- The registry part of `CSProtocolHandler`: the `bcState` nested map,
org then type then name. -/
structure CSState where
  bcState : List (String × List (String × List (String × BlockchainState)))
deriving DecidableEq, Repr

/-- Embeds `getBCNameMap` as a pure lookup.  The Go function also inserts
missing empty inner maps into `bcState`; no caller can observe those empty
maps through the lookups embedded here, so that mutation is dropped. -/
def getBCNameMap (s : CSState) (org typeName : String) :
    List (String × BlockchainState) :=
  match lookupA s.bcState org with
  | none => []
  | some orgMap =>
      match lookupA orgMap typeName with
      | none => []
      | some nameMap => nameMap

/-- Embeds `CSProtocolHandler.AgreementProtocolHandler`; the nil interface
result is `none`. -/
def agreementProtocolHandler (s : CSState) (typeName name org : String) :
    Option ProtocolHandlerRef :=
  if typeName = "" ∧ name = "" ∧ org = "" then some .generic
  else
    match lookupA (getBCNameMap s org typeName) name with
    | some namedBC => if namedBC.ready then some namedBC.agreementPH else none
    | none => none

/-- Embeds `CSProtocolHandler.IsBlockchainWritable`. -/
def isBlockchainWritable (s : CSState) (typeName name org : String) : Bool :=
  match lookupA (getBCNameMap s org typeName) name with
  | some namedBC => namedBC.ready && namedBC.writable
  | none => false

/-- Embeds `CSProtocolHandler.IsBlockchainReady`. -/
def isBlockchainReady (s : CSState) (typeName name org : String) : Bool :=
  match lookupA (getBCNameMap s org typeName) name with
  | some namedBC => namedBC.ready
  | none => false

/-- Embeds the agreement record fields that `part_000` reads. -/
structure Agreement where
  CurrentAgreementId : String
  AgreementProtocolVersion : Nat
  BlockchainType : String
  BlockchainName : String
  BlockchainOrg : String
deriving DecidableEq, Repr

/-- Embeds `CSProtocolHandler.GetKnownBlockchain`. -/
def getKnownBlockchain (ag : Agreement) : String × String × String :=
  (ag.BlockchainType, ag.BlockchainName, ag.BlockchainOrg)

/-- Embeds `CSProtocolHandler.CanCancelNow`; the Go nil pointer is `none`. -/
def canCancelNow (s : CSState) (ag : Option Agreement) : Bool :=
  match ag with
  | none => true
  | some a =>
      let bc := getKnownBlockchain a
      match lookupA (getBCNameMap s bc.2.2 bc.1) bc.2.1 with
      | some namedBC => if !namedBC.ready then false else true
      | none => false

/-- Embeds `CSProtocolHandler.getColonusDir`. -/
def getColonusDir (s : CSState) (ag : Option Agreement) : String :=
  match ag with
  | none => ""
  | some a =>
      let bc := getKnownBlockchain a
      match lookupA (getBCNameMap s bc.2.2 bc.1) bc.2.1 with
      | some namedBC => if !namedBC.ready then "" else namedBC.colonusDir
      | none => ""

/-- Deferred agreement work items produced by `PostReply` (the
`AsyncUpdateAgreement` and `AsyncWriteAgreement` structs). -/
inductive AgreementWork where
  | asyncUpdate (agreementId : String)
  | asyncWrite (agreementId : String)
deriving DecidableEq, Repr

/-- Embeds `events.NewNewBCContainerMessage(events.NEW_BC_CLIENT, ...)`
restricted to the ledger-naming fields; the exchange URL, bot id and token
configuration fields carried by the event do not name the ledger and are
not modelled. -/
structure NewBCContainerMsg where
  typeName : String
  name : String
  org : String
deriving DecidableEq, Repr

/-- Observable outcome of one `PostReply` call: deferred work items,
emitted container-request messages, record attempts made through a bound
handler, and the returned error. -/
structure PostReplyOut where
  deferred : List AgreementWork
  messages : List NewBCContainerMsg
  recorded : List ProtocolHandlerRef
  result : Option String
deriving DecidableEq, Repr

/-- Embeds `CSProtocolHandler.PostReply`.  The database query result and
the outcome of the external `RecordAgreement` call are parameters: the
store and the ledger are outside src. -/
def postReply (s : CSState) (dbAgreement : Except String (Option Agreement))
    (recordResult : Except String Unit) : PostReplyOut :=
  match dbAgreement with
  | .error _ => { deferred := [], messages := [], recorded := [], result := none }
  | .ok none => { deferred := [], messages := [], recorded := [], result := none }
  | .ok (some agreement) =>
      if agreement.AgreementProtocolVersion < 2 then
        match agreementProtocolHandler s agreement.BlockchainType
            agreement.BlockchainName agreement.BlockchainOrg with
        | none => { deferred := [], messages := [], recorded := [], result := none }
        | some aph =>
            match recordResult with
            | .error e =>
                { deferred := [], messages := [], recorded := [aph], result := some e }
            | .ok _ =>
                { deferred := [], messages := [], recorded := [aph], result := none }
      else if agreement.AgreementProtocolVersion = 2 then
        if isBlockchainWritable s agreement.BlockchainType agreement.BlockchainName
            agreement.BlockchainOrg then
          { deferred := [.asyncUpdate agreement.CurrentAgreementId,
              .asyncWrite agreement.CurrentAgreementId],
            messages := [], recorded := [], result := none }
        else
          { deferred := [],
            messages := [NewBCContainerMsg.mk agreement.BlockchainType
              agreement.BlockchainName agreement.BlockchainOrg],
            recorded := [], result := none }
      else { deferred := [], messages := [], recorded := [], result := none }

/-! ### Termination reason codes

The `citizenscientist` constants `AB_*` and `DecodeReasonCode`, and the
agreementbot `TERM_REASON_*` strings, are referenced by `part_000` but
defined in files outside src.  They are modelled from the spec reason-code
table (spec section 4.1). -/

/-- Modelled from the spec: the closed set of symbolic termination reason
strings (the agreementbot `TERM_REASON_*` constants, defined outside src).
Only the identity of each string matters; the spec table's symbolic names
are used as the values. -/
def TERM_REASON_POLICY_CHANGED : String := "AB_CANCEL_POLICY_CHANGED"

/-- Modelled from the spec: see `TERM_REASON_POLICY_CHANGED`. -/
def TERM_REASON_NOT_FINALIZED_TIMEOUT : String := "AB_CANCEL_NOT_FINALIZED_TIMEOUT"

/-- Modelled from the spec: see `TERM_REASON_POLICY_CHANGED`. -/
def TERM_REASON_NO_DATA_RECEIVED : String := "AB_CANCEL_NO_DATA_RECEIVED"

/-- Modelled from the spec: see `TERM_REASON_POLICY_CHANGED`. -/
def TERM_REASON_NO_REPLY : String := "AB_CANCEL_NO_REPLY"

/-- Modelled from the spec: see `TERM_REASON_POLICY_CHANGED`. -/
def TERM_REASON_USER_REQUESTED : String := "AB_USER_REQUESTED"

/-- Modelled from the spec: see `TERM_REASON_POLICY_CHANGED`. -/
def TERM_REASON_NEGATIVE_REPLY : String := "AB_CANCEL_NEGATIVE_REPLY"

/-- Modelled from the spec: see `TERM_REASON_POLICY_CHANGED`. -/
def TERM_REASON_CANCEL_DISCOVERED : String := "AB_CANCEL_DISCOVERED"

/-- Modelled from the spec: see `TERM_REASON_POLICY_CHANGED`. -/
def TERM_REASON_CANCEL_FORCED_UPGRADE : String := "AB_CANCEL_FORCED_UPGRADE"

/-- Modelled from the spec: see `TERM_REASON_POLICY_CHANGED`. -/
def TERM_REASON_CANCEL_BC_WRITE_FAILED : String := "AB_CANCEL_BC_WRITE_FAILED"

/-- Modelled from the spec: see `TERM_REASON_POLICY_CHANGED`. -/
def TERM_REASON_NODE_HEARTBEAT : String := "AB_CANCEL_NODE_HEARTBEAT"

/-- Modelled from the spec: see `TERM_REASON_POLICY_CHANGED`. -/
def TERM_REASON_AG_MISSING : String := "AB_CANCEL_AG_MISSING"

/-- Modelled from the spec reason-code table: `AB_CANCEL_POLICY_CHANGED`. -/
def AB_CANCEL_POLICY_CHANGED : Nat := 200

/-- Modelled from the spec reason-code table. -/
def AB_CANCEL_NOT_FINALIZED_TIMEOUT : Nat := 201

/-- Modelled from the spec reason-code table. -/
def AB_CANCEL_NO_DATA_RECEIVED : Nat := 202

/-- Modelled from the spec reason-code table. -/
def AB_CANCEL_NO_REPLY : Nat := 203

/-- Modelled from the spec reason-code table. -/
def AB_USER_REQUESTED : Nat := 204

/-- Modelled from the spec reason-code table. -/
def AB_CANCEL_NEGATIVE_REPLY : Nat := 205

/-- Modelled from the spec reason-code table. -/
def AB_CANCEL_DISCOVERED : Nat := 206

/-- Modelled from the spec reason-code table. -/
def AB_CANCEL_FORCED_UPGRADE : Nat := 207

/-- Modelled from the spec reason-code table. -/
def AB_CANCEL_BC_WRITE_FAILED : Nat := 208

/-- Modelled from the spec reason-code table. -/
def AB_CANCEL_NODE_HEARTBEAT : Nat := 209

/-- Modelled from the spec reason-code table. -/
def AB_CANCEL_AG_MISSING : Nat := 210

/-- The closed set of symbolic termination reasons handled by the switch
of `GetTerminationCode`. -/
def terminationReasons : List String :=
  [TERM_REASON_POLICY_CHANGED, TERM_REASON_NOT_FINALIZED_TIMEOUT,
   TERM_REASON_NO_DATA_RECEIVED, TERM_REASON_NO_REPLY,
   TERM_REASON_USER_REQUESTED, TERM_REASON_NEGATIVE_REPLY,
   TERM_REASON_CANCEL_DISCOVERED, TERM_REASON_CANCEL_FORCED_UPGRADE,
   TERM_REASON_CANCEL_BC_WRITE_FAILED, TERM_REASON_NODE_HEARTBEAT,
   TERM_REASON_AG_MISSING]

/-- Embeds the switch of `CSProtocolHandler.GetTerminationCode`. -/
def getTerminationCode (reason : String) : Nat :=
  if reason = TERM_REASON_POLICY_CHANGED then AB_CANCEL_POLICY_CHANGED
  else if reason = TERM_REASON_NOT_FINALIZED_TIMEOUT then AB_CANCEL_NOT_FINALIZED_TIMEOUT
  else if reason = TERM_REASON_NO_DATA_RECEIVED then AB_CANCEL_NO_DATA_RECEIVED
  else if reason = TERM_REASON_NO_REPLY then AB_CANCEL_NO_REPLY
  else if reason = TERM_REASON_USER_REQUESTED then AB_USER_REQUESTED
  else if reason = TERM_REASON_NEGATIVE_REPLY then AB_CANCEL_NEGATIVE_REPLY
  else if reason = TERM_REASON_CANCEL_DISCOVERED then AB_CANCEL_DISCOVERED
  else if reason = TERM_REASON_CANCEL_FORCED_UPGRADE then AB_CANCEL_FORCED_UPGRADE
  else if reason = TERM_REASON_CANCEL_BC_WRITE_FAILED then AB_CANCEL_BC_WRITE_FAILED
  else if reason = TERM_REASON_NODE_HEARTBEAT then AB_CANCEL_NODE_HEARTBEAT
  else if reason = TERM_REASON_AG_MISSING then AB_CANCEL_AG_MISSING
  else 999

/-- Modelled from the spec: `citizenscientist.DecodeReasonCode` (outside
src) maps every numeric code of the table back to its symbolic form and
every other code to the fallback string. -/
def decodeReasonCode (code : Nat) : String :=
  if code = AB_CANCEL_POLICY_CHANGED then TERM_REASON_POLICY_CHANGED
  else if code = AB_CANCEL_NOT_FINALIZED_TIMEOUT then TERM_REASON_NOT_FINALIZED_TIMEOUT
  else if code = AB_CANCEL_NO_DATA_RECEIVED then TERM_REASON_NO_DATA_RECEIVED
  else if code = AB_CANCEL_NO_REPLY then TERM_REASON_NO_REPLY
  else if code = AB_USER_REQUESTED then TERM_REASON_USER_REQUESTED
  else if code = AB_CANCEL_NEGATIVE_REPLY then TERM_REASON_NEGATIVE_REPLY
  else if code = AB_CANCEL_DISCOVERED then TERM_REASON_CANCEL_DISCOVERED
  else if code = AB_CANCEL_FORCED_UPGRADE then TERM_REASON_CANCEL_FORCED_UPGRADE
  else if code = AB_CANCEL_BC_WRITE_FAILED then TERM_REASON_CANCEL_BC_WRITE_FAILED
  else if code = AB_CANCEL_NODE_HEARTBEAT then TERM_REASON_NODE_HEARTBEAT
  else if code = AB_CANCEL_AG_MISSING then TERM_REASON_AG_MISSING
  else "unknown"

/-- Embeds `CSProtocolHandler.GetTerminationReason`, which delegates to
`citizenscientist.DecodeReasonCode`. -/
def getTerminationReason (code : Nat) : String :=
  decodeReasonCode code

/-! ### cutil.GenerateAgreementId (src/cutil/cutil.go) -/

/-- Embeds `hex.EncodeToString` for a single byte: high nibble then low
nibble, lowercase digits. -/
def byteToHexChars (b : Nat) : List Char :=
  [Nat.digitChar (b / 16), Nat.digitChar (b % 16)]

/-- Embeds `hex.EncodeToString` over a byte slice. -/
def hexEncodeBytes (bs : List Nat) : String :=
  String.mk (bs.flatMap byteToHexChars)

/-- Embeds `cutil.GenerateAgreementId`.  The crypto/rand read of 32 bytes
is a parameter: on success it yields the filled byte slice, on failure the
error; the Go function then hex-encodes on success and otherwise returns
the empty string together with the error. -/
def generateAgreementId (randRead : Except String (List Nat)) :
    String × Option String :=
  match randRead with
  | .error e => ("", some e)
  | .ok bytes => (hexEncodeBytes bytes, none)

/-- True for the sixteen lowercase hexadecimal digit characters. -/
def isLowerHexDigit (c : Char) : Bool :=
  (decide ('0' ≤ c) && decide (c ≤ '9')) ||
    (decide ('a' ≤ c) && decide (c ≤ 'f'))

/-! ### Specification predicates over the Pattern Manager -/

/-- The spec invariant for one live entry: the stored hash is the
SHA3-256 digest of the JSON serialization of the stored pattern. -/
def entryHashOk (env : PMEnv) (pe : PatternEntry) : Prop :=
  hashPattern env pe.Pattern = .ok pe.Hash

/-- The spec invariant over the whole manager: every live (non-nil) entry
satisfies `entryHashOk`. -/
def pmHashInv (env : PMEnv) (pm : PatternManager) : Prop :=
  ∀ org orgMap, lookupA pm.OrgPatterns org = some orgMap →
    ∀ pat pe, lookupA orgMap pat = some (some pe) → entryHashOk env pe

/-- The same invariant restricted to one org map. -/
def orgMapHashOk (env : PMEnv) (om : List (String × Option PatternEntry)) : Prop :=
  ∀ pat pe, lookupA om pat = some (some pe) → entryHashOk env pe

/-- One Pattern Manager reconciliation step: a `SetCurrentPatterns` call
or an `UpdatePatternPolicies` call, with any arguments, taking the state
the call leaves behind (also on an error return, since the Go methods
mutate the receiver in place). -/
inductive PMStep (env : PMEnv) : PatternManager → PatternManager → Prop where
  | set (pm : PatternManager) (served : List ServedPattern) (policyPath : String) :
      PMStep env pm (setCurrentPatterns env pm served policyPath).1
  | update (pm : PatternManager) (org : String) (defs : List (String × Pattern))
      (policyPath : String) :
      PMStep env pm (updatePatternPolicies env pm org defs policyPath).1

/-- States reachable from a fresh Pattern Manager by any sequence of
reconciliation calls. -/
inductive PMReachable (env : PMEnv) : PatternManager → Prop where
  | init : PMReachable env newPatternManager
  | step {pm pm2 : PatternManager} : PMReachable env pm → PMStep env pm pm2 →
      PMReachable env pm2

/-- Decidable form of the C2 precondition for one defined pattern: if the
pattern is served, its entry is materialized and the re-computed hash of
the defined pattern equals the stored hash. -/
def entryHashCurrent (env : PMEnv) (pm : PatternManager) (org : String)
    (d : String × Pattern) : Bool :=
  match getEntry pm org (env.getId d.1) with
  | some (some pe) => hashPattern env d.2 == .ok pe.Hash
  | some none => false
  | none => true

/-! ### Concrete fixtures used to instantiate the theorems -/

/-- A concrete, everywhere-succeeding environment for the Pattern
Manager.  The hash abstraction maps a JSON string to the one-element list
of its length; only determinism of the hash is relied on. -/
def testEnv : PMEnv where
  marshal := fun p => .ok p.jsonData
  sha3Sum256 := fun s => [s.length]
  getId := fun s => s
  convertToPolicies := fun patternId _ => .ok [{ headerName := patternId }]
  createPolicyFile := fun policyPath org name _ => .ok (policyPath ++ "/" ++ org ++ "_" ++ name)
  deletePolicyFile := fun _ => .ok ()
  deletePolicyFilesForOrg := fun _ _ _ => .ok ()
  deletePolicyFilesForPattern := fun _ _ _ => .ok ()
  nowUnix := 1000

/-- testEnv in which every file deletion primitive fails. -/
def testEnvDeleteFail : PMEnv :=
  { testEnv with
    deletePolicyFile := fun _ => .error "disk error"
    deletePolicyFilesForOrg := fun _ _ _ => .error "disk error"
    deletePolicyFilesForPattern := fun _ _ _ => .error "disk error" }

/-- testEnv with a failing policy-file create. -/
def testEnvCreateFail : PMEnv :=
  { testEnv with createPolicyFile := fun _ _ _ _ => .error "disk error" }

/-- A first concrete pattern document. -/
def patOne : Pattern := { jsonData := "P1" }

/-- A second concrete pattern document, hashing differently from
`patOne` under `testEnv`. -/
def patTwo : Pattern := { jsonData := "PAT2" }

/-- The materialized entry for `patOne` under `testEnv`
(`testEnv.sha3Sum256 "P1" = [2]`). -/
def entryOne : PatternEntry :=
  { Pattern := patOne, Updated := 5, Hash := [2], PolicyFileNames := ["f1"] }

/-- A manager serving pattern p1 of org o1, already materialized. -/
def pmOne : PatternManager := { OrgPatterns := [("o1", [("p1", some entryOne)])] }

/-- A manager serving pattern p1 of org o1, not yet materialized. -/
def pmNil : PatternManager := { OrgPatterns := [("o1", [("p1", none)])] }

/-- A ready and writable ledger client registry entry. -/
def bcReady : BlockchainState :=
  { ready := true, writable := true, service := "svc", servicePort := "8545",
    colonusDir := "/var/horizon", agreementPH := .bound 7 }

/-- A registry entry that exists but is not ready. -/
def bcNotReady : BlockchainState :=
  { ready := false, writable := false, service := "svc", servicePort := "8545",
    colonusDir := "/var/horizon", agreementPH := .bound 8 }

/-- A registry with one ready, writable entry (acme, ethereum, bc1). -/
def csReadyState : CSState :=
  { bcState := [("acme", [("ethereum", [("bc1", bcReady)])])] }

/-- A registry with one existing but not ready entry. -/
def csNotReadyState : CSState :=
  { bcState := [("acme", [("ethereum", [("bc1", bcNotReady)])])] }

/-- An empty registry. -/
def csEmptyState : CSState := { bcState := [] }

/-- A version-2 agreement naming the (acme, ethereum, bc1) ledger. -/
def agreementV2 : Agreement :=
  { CurrentAgreementId := "ag1", AgreementProtocolVersion := 2,
    BlockchainType := "ethereum", BlockchainName := "bc1", BlockchainOrg := "acme" }

/-- A version-1 agreement naming the (acme, ethereum, bc1) ledger. -/
def agreementV1 : Agreement :=
  { CurrentAgreementId := "ag1", AgreementProtocolVersion := 1,
    BlockchainType := "ethereum", BlockchainName := "bc1", BlockchainOrg := "acme" }

/-! ### Theorems -/

/-- C10: `UpdatePatternPolicies` called with an org that is not present in
the Pattern Manager returns an error immediately, leaves the manager state
unchanged and touches no policy file (empty event trace); the org must
have been registered by `SetCurrentPatterns` first. -/
theorem updatePatternPolicies_unknown_org (env : PMEnv) (pm : PatternManager)
    (org : String) (defs : List (String × Pattern)) (policyPath : String)
    (h : hasOrg pm org = false) :
    updatePatternPolicies env pm org defs policyPath =
      (pm, [], some ("org " ++ org ++ " not found in pattern manager")) := by
  unfold updatePatternPolicies
  simp [h]

/-- Witness for C10 at a concrete unregistered org. -/
theorem updatePatternPolicies_unknown_org_witness :
    hasOrg pmOne "zzz" = false ∧
    updatePatternPolicies testEnv pmOne "zzz" [("p1", patOne)] "pp" =
      (pmOne, [], some ("org " ++ "zzz" ++ " not found in pattern manager")) :=
  ⟨by decide,
   updatePatternPolicies_unknown_org testEnv pmOne "zzz" [("p1", patOne)] "pp"
     (by decide)⟩

/-- C9: `CanCancelNow` with a nil agreement returns true; with a non-nil
agreement it returns true exactly when the registry holds an entry for the
agreement's recorded blockchain (org, type, name) and that entry is ready;
equivalently it agrees with `IsBlockchainReady` on that triple. -/
theorem canCancelNow_iff_ready (s : CSState) (ag : Agreement) :
    canCancelNow s none = true ∧
    canCancelNow s (some ag) =
      isBlockchainReady s ag.BlockchainType ag.BlockchainName ag.BlockchainOrg ∧
    (canCancelNow s (some ag) = true ↔
      ∃ bc, lookupA (getBCNameMap s ag.BlockchainOrg ag.BlockchainType)
          ag.BlockchainName = some bc ∧ bc.ready = true) := by
  refine ⟨rfl, ?_, ?_⟩
  · unfold canCancelNow isBlockchainReady getKnownBlockchain
    cases h : lookupA (getBCNameMap s ag.BlockchainOrg ag.BlockchainType)
        ag.BlockchainName with
    | none => simp [h]
    | some bc => cases hr : bc.ready <;> simp [h, hr]
  · unfold canCancelNow getKnownBlockchain
    cases h : lookupA (getBCNameMap s ag.BlockchainOrg ag.BlockchainType)
        ag.BlockchainName with
    | none => simp [h]
    | some bc => cases hr : bc.ready <;> simp [h, hr]

/-- C7: the empty triple returns the generic handler; a triple whose
registry entry is missing or not ready yields a nil agreement protocol
handler (for a non-empty triple), false readiness and writability
predicates and an empty colonus directory; and writability requires a
ready and writable entry. -/
theorem registry_query_defaults (s : CSState) (typeName name org : String)
    (ag : Agreement)
    (hmiss : ∀ bc, lookupA (getBCNameMap s org typeName) name = some bc →
      bc.ready = false)
    (hag : ∀ bc, lookupA (getBCNameMap s ag.BlockchainOrg ag.BlockchainType)
      ag.BlockchainName = some bc → bc.ready = false) :
    agreementProtocolHandler s "" "" "" = some .generic ∧
    (¬(typeName = "" ∧ name = "" ∧ org = "") →
      agreementProtocolHandler s typeName name org = none) ∧
    isBlockchainReady s typeName name org = false ∧
    isBlockchainWritable s typeName name org = false ∧
    getColonusDir s (some ag) = "" ∧
    (∀ t n o, isBlockchainWritable s t n o = true →
      ∃ bc, lookupA (getBCNameMap s o t) n = some bc ∧
        bc.ready = true ∧ bc.writable = true) := by
  refine ⟨rfl, ?_, ?_, ?_, ?_, ?_⟩
  · intro hne
    unfold agreementProtocolHandler
    rw [if_neg hne]
    cases h : lookupA (getBCNameMap s org typeName) name with
    | none => rfl
    | some bc => simp [hmiss bc h]
  · unfold isBlockchainReady
    cases h : lookupA (getBCNameMap s org typeName) name with
    | none => rfl
    | some bc => simpa using hmiss bc h
  · unfold isBlockchainWritable
    cases h : lookupA (getBCNameMap s org typeName) name with
    | none => rfl
    | some bc => simp [hmiss bc h]
  · unfold getColonusDir getKnownBlockchain
    cases h : lookupA (getBCNameMap s ag.BlockchainOrg ag.BlockchainType)
        ag.BlockchainName with
    | none => simp [h]
    | some bc => simp [h, hag bc h]
  · intro t n o hw
    unfold isBlockchainWritable at hw
    cases h : lookupA (getBCNameMap s o t) n with
    | none => rw [h] at hw; exact absurd hw (by simp)
    | some bc =>
        rw [h] at hw
        simp only [Bool.and_eq_true] at hw
        exact ⟨bc, rfl, hw.1, hw.2⟩

/-- Witness for C7 on a registry holding only a not-ready entry. -/
theorem registry_query_defaults_witness :
    agreementProtocolHandler csNotReadyState "" "" "" = some .generic ∧
    (¬("ethereum" = "" ∧ "bc1" = "" ∧ "acme" = "") →
      agreementProtocolHandler csNotReadyState "ethereum" "bc1" "acme" = none) ∧
    isBlockchainReady csNotReadyState "ethereum" "bc1" "acme" = false ∧
    isBlockchainWritable csNotReadyState "ethereum" "bc1" "acme" = false ∧
    getColonusDir csNotReadyState (some agreementV2) = "" ∧
    (∀ t n o, isBlockchainWritable csNotReadyState t n o = true →
      ∃ bc, lookupA (getBCNameMap csNotReadyState o t) n = some bc ∧
        bc.ready = true ∧ bc.writable = true) :=
  registry_query_defaults csNotReadyState "ethereum" "bc1" "acme" agreementV2
    (by decide) (by decide)

/-- C6: a positive reply processed by `PostReply` for a version-2
agreement defers exactly an `AsyncUpdate` and an `AsyncWrite` work item
carrying the agreement id when the named ledger is writable, and otherwise
defers nothing and emits a single `NEW_BC_CLIENT` message naming the
ledger; for a version-1 agreement the reply is recorded through the
protocol handler bound to the agreement's ledger instance. -/
theorem postReply_routing (s : CSState) (ag : Agreement)
    (recordResult : Except String Unit) :
    (ag.AgreementProtocolVersion = 2 →
      isBlockchainWritable s ag.BlockchainType ag.BlockchainName
        ag.BlockchainOrg = true →
      postReply s (.ok (some ag)) recordResult =
        { deferred := [.asyncUpdate ag.CurrentAgreementId,
            .asyncWrite ag.CurrentAgreementId],
          messages := [], recorded := [], result := none }) ∧
    (ag.AgreementProtocolVersion = 2 →
      isBlockchainWritable s ag.BlockchainType ag.BlockchainName
        ag.BlockchainOrg = false →
      postReply s (.ok (some ag)) recordResult =
        { deferred := [],
          messages := [NewBCContainerMsg.mk ag.BlockchainType ag.BlockchainName
            ag.BlockchainOrg],
          recorded := [], result := none }) ∧
    (ag.AgreementProtocolVersion = 1 →
      ∀ aph, agreementProtocolHandler s ag.BlockchainType ag.BlockchainName
          ag.BlockchainOrg = some aph →
        (postReply s (.ok (some ag)) recordResult).recorded = [aph]) := by
  refine ⟨?_, ?_, ?_⟩
  · intro hv hw
    unfold postReply
    simp [hv, hw]
  · intro hv hw
    unfold postReply
    simp [hv, hw]
  · intro hv aph haph
    unfold postReply
    simp only [hv]
    norm_num
    rw [haph]
    cases recordResult <;> rfl

/-- Witness for C6: writable ledger defers the two work items, missing
ledger emits the container request, ready ledger records a v1 reply. -/
theorem postReply_routing_witness :
    postReply csReadyState (.ok (some agreementV2)) (.ok ()) =
      { deferred := [.asyncUpdate "ag1", .asyncWrite "ag1"],
        messages := [], recorded := [], result := none } ∧
    postReply csEmptyState (.ok (some agreementV2)) (.ok ()) =
      { deferred := [],
        messages := [NewBCContainerMsg.mk "ethereum" "bc1" "acme"],
        recorded := [], result := none } ∧
    (postReply csReadyState (.ok (some agreementV1)) (.ok ())).recorded =
      [.bound 7] :=
  ⟨(postReply_routing csReadyState agreementV2 (.ok ())).1 (by decide) (by decide),
   (postReply_routing csEmptyState agreementV2 (.ok ())).2.1 (by decide) (by decide),
   (postReply_routing csReadyState agreementV1 (.ok ())).2.2 (by decide)
     (.bound 7) (by decide)⟩

/-- C1: every symbolic reason of the closed set encodes to its spec-table
numeric code in 200..210 and decodes back to itself; every code in
200..210 survives encode after decode; every reason string outside the
closed set encodes to 999. -/
theorem termination_code_roundtrip :
    (getTerminationCode TERM_REASON_POLICY_CHANGED = 200 ∧
     getTerminationCode TERM_REASON_NOT_FINALIZED_TIMEOUT = 201 ∧
     getTerminationCode TERM_REASON_NO_DATA_RECEIVED = 202 ∧
     getTerminationCode TERM_REASON_NO_REPLY = 203 ∧
     getTerminationCode TERM_REASON_USER_REQUESTED = 204 ∧
     getTerminationCode TERM_REASON_NEGATIVE_REPLY = 205 ∧
     getTerminationCode TERM_REASON_CANCEL_DISCOVERED = 206 ∧
     getTerminationCode TERM_REASON_CANCEL_FORCED_UPGRADE = 207 ∧
     getTerminationCode TERM_REASON_CANCEL_BC_WRITE_FAILED = 208 ∧
     getTerminationCode TERM_REASON_NODE_HEARTBEAT = 209 ∧
     getTerminationCode TERM_REASON_AG_MISSING = 210) ∧
    (∀ r ∈ terminationReasons,
       getTerminationReason (getTerminationCode r) = r) ∧
    (∀ c, 200 ≤ c → c ≤ 210 → getTerminationCode (getTerminationReason c) = c) ∧
    (∀ r, r ∉ terminationReasons → getTerminationCode r = 999) := by
  refine ⟨by decide, by decide, ?_, ?_⟩
  · intro c h1 h2
    interval_cases c <;> decide
  · intro r hr
    simp only [terminationReasons, List.mem_cons, List.not_mem_nil, or_false,
      not_or] at hr
    obtain ⟨h1, h2, h3, h4, h5, h6, h7, h8, h9, h10, h11⟩ := hr
    unfold getTerminationCode
    simp [h1, h2, h3, h4, h5, h6, h7, h8, h9, h10, h11]

/-- Witness for C1 at concrete reasons and codes. -/
theorem termination_code_roundtrip_witness :
    getTerminationReason (getTerminationCode TERM_REASON_NO_REPLY) =
      TERM_REASON_NO_REPLY ∧
    getTerminationCode (getTerminationReason 208) = 208 ∧
    getTerminationCode "no such reason" = 999 :=
  ⟨termination_code_roundtrip.2.1 TERM_REASON_NO_REPLY (by decide),
   termination_code_roundtrip.2.2.1 208 (by decide) (by decide),
   termination_code_roundtrip.2.2.2 "no such reason" (by decide)⟩

/-- Each byte contributes exactly two characters to the hex encoding. -/
theorem hexEncodeBytes_length (bs : List Nat) :
    (hexEncodeBytes bs).length = 2 * bs.length := by
  unfold hexEncodeBytes
  induction bs with
  | nil => rfl
  | cons b rest ih =>
      simp only [List.flatMap_cons, String.length] at ih ⊢
      simp [byteToHexChars] at *
      omega

/-- C8: on a successful 32-byte random read, `GenerateAgreementId` returns
no error and an agreement id of exactly 64 lowercase hexadecimal
characters, the hex encoding of the random bytes. -/
theorem generateAgreementId_format (bytes : List Nat)
    (hlen : bytes.length = 32) (hrange : ∀ b ∈ bytes, b < 256) :
    (generateAgreementId (.ok bytes)).2 = none ∧
    (generateAgreementId (.ok bytes)).1 = hexEncodeBytes bytes ∧
    (generateAgreementId (.ok bytes)).1.length = 64 ∧
    ∀ c ∈ (generateAgreementId (.ok bytes)).1.data, isLowerHexDigit c = true := by
  refine ⟨rfl, rfl, ?_, ?_⟩
  · show (hexEncodeBytes bytes).length = 64
    rw [hexEncodeBytes_length, hlen]
  · intro c hc
    have hc' : c ∈ bytes.flatMap byteToHexChars := hc
    rw [List.mem_flatMap] at hc'
    obtain ⟨b, hb, hcb⟩ := hc'
    have hb256 := hrange b hb
    have key : ∀ n, n < 16 → isLowerHexDigit (Nat.digitChar n) = true := by decide
    have h1 : b / 16 < 16 := Nat.div_lt_of_lt_mul (by omega)
    have h2 : b % 16 < 16 := Nat.mod_lt _ (by omega)
    simp only [byteToHexChars, List.mem_cons, List.not_mem_nil, or_false] at hcb
    rcases hcb with h | h
    · rw [h]; exact key _ h1
    · rw [h]; exact key _ h2

/-- Witness for C8 at a concrete 32-byte read. -/
theorem generateAgreementId_format_witness :
    (generateAgreementId (.ok (List.replicate 32 171))).2 = none ∧
    (generateAgreementId (.ok (List.replicate 32 171))).1 =
      hexEncodeBytes (List.replicate 32 171) ∧
    (generateAgreementId (.ok (List.replicate 32 171))).1.length = 64 ∧
    ∀ c ∈ (generateAgreementId (.ok (List.replicate 32 171))).1.data,
      isLowerHexDigit c = true :=
  generateAgreementId_format (List.replicate 32 171) (by decide)
    (by intro b hb; rw [List.mem_replicate] at hb; omega)

/-- The deletion loop of `UpdatePatternPolicies` does nothing when every
existing pattern name of the org matches some defined pattern id. -/
theorem updateDeleteMissing_all_found (env : PMEnv) (policyPath org : String)
    (defs : List (String × Pattern)) (keys : List String) (pm : PatternManager)
    (h : ∀ k ∈ keys, foundInDefs env defs k = true) :
    updateDeleteMissing env policyPath org defs keys pm = (pm, [], none) := by
  induction keys generalizing pm with
  | nil => rfl
  | cons k ks ih =>
      unfold updateDeleteMissing
      simp only [h k (List.mem_cons_self k ks), if_true]
      exact ih pm (fun k2 hk => h k2 (List.mem_cons_of_mem _ hk))

/-- The main loop of `UpdatePatternPolicies` does nothing when every
served defined pattern already has a materialized entry whose stored hash
matches the defined pattern. -/
theorem updateDefsLoop_noop (env : PMEnv) (policyPath org : String)
    (defs : List (String × Pattern)) (pm : PatternManager)
    (h : ∀ d ∈ defs, entryHashCurrent env pm org d = true) :
    updateDefsLoop env policyPath org defs pm = (pm, [], none) := by
  induction defs with
  | nil => rfl
  | cons d rest ih =>
      obtain ⟨pid, pat⟩ := d
      have hd := h _ (List.mem_cons_self _ _)
      unfold entryHashCurrent at hd
      have hrest := ih (fun d2 hd2 => h d2 (List.mem_cons_of_mem _ hd2))
      unfold updateDefsLoop
      cases hge : getEntry pm org (env.getId pid) with
      | none => simpa [hge] using hrest
      | some entry =>
          cases entry with
          | none => rw [hge] at hd; simp at hd
          | some pe =>
              rw [hge] at hd
              simp only [beq_iff_eq] at hd
              simp [hge, hd, hrest]

/-- C2: a second `UpdatePatternPolicies` run with the same org and the
same defined-pattern map, in a state where every served pattern is
materialized with a stored hash equal to the re-computed hash of its
defined pattern, performs zero policy-file deletions, zero policy-file
creations (empty event trace), returns no error and leaves every
`PatternEntry` (the whole manager state) unchanged. -/
theorem updatePatternPolicies_idempotent (env : PMEnv) (pm : PatternManager)
    (org policyPath : String) (defs : List (String × Pattern))
    (hne : defs.isEmpty = false)
    (horg : hasOrg pm org = true)
    (hkeys : ∀ k ∈ ((lookupA pm.OrgPatterns org).getD []).map Prod.fst,
      foundInDefs env defs k = true)
    (hcur : ∀ d ∈ defs, entryHashCurrent env pm org d = true) :
    updatePatternPolicies env pm org defs policyPath = (pm, [], none) := by
  unfold updatePatternPolicies
  simp only [horg, if_true, hne, Bool.false_eq_true, if_false]
  rw [updateDeleteMissing_all_found env policyPath org defs _ pm hkeys]
  simp only
  rw [updateDefsLoop_noop env policyPath org defs pm hcur]
  rfl

/-- Witness for C2: re-running the update for the already materialized
`pmOne` state changes nothing and touches no file. -/
theorem updatePatternPolicies_idempotent_witness :
    updatePatternPolicies testEnv pmOne "o1" [("p1", patOne)] "pp" =
      (pmOne, [], none) :=
  updatePatternPolicies_idempotent testEnv pmOne "o1" "pp" [("p1", patOne)]
    (by decide) (by decide) (by decide) (by decide)

/-- The pattern-deletion loop of `SetCurrentPatterns` never reports an
error, whatever the file-system does. -/
theorem scanPatternDeletes_no_error (env : PMEnv) (policyPath org : String)
    (newOrgMap : List (String × Option PatternEntry)) (pats : List String)
    (pm : PatternManager) :
    (scanPatternDeletes env policyPath org newOrgMap pats pm).2.2 = none := by
  induction pats generalizing pm with
  | nil => rfl
  | cons p rest ih =>
      unfold scanPatternDeletes
      by_cases h : (lookupA newOrgMap p).isSome
      · simp [h, ih]
      · simp [h, deletePattern, ih]

/-- The org-deletion phase of `SetCurrentPatterns` never reports an
error, whatever the file-system does. -/
theorem scanOrgDeletes_no_error (env : PMEnv) (policyPath : String)
    (newMap : List (String × List (String × Option PatternEntry)))
    (orgs : List (String × List (String × Option PatternEntry)))
    (pm : PatternManager) :
    (scanOrgDeletes env policyPath newMap orgs pm).2.2 = none := by
  induction orgs generalizing pm with
  | nil => rfl
  | cons o rest ih =>
      obtain ⟨org0, orgMap0⟩ := o
      unfold scanOrgDeletes
      cases h : lookupA newMap org0 with
      | none => simp [h, deleteOrg, ih]
      | some nm =>
          have hs := scanPatternDeletes_no_error env policyPath org0 nm
            (orgMap0.map Prod.fst) pm
          simp [h, hs, ih]

/-- The method `SetCurrentPatterns` never returns an error: all its file-system work
is deletion, and deletion failures are logged and dropped. -/
theorem setCurrentPatterns_no_error (env : PMEnv) (pm : PatternManager)
    (served : List ServedPattern) (policyPath : String) :
    (setCurrentPatterns env pm served policyPath).2.2 = none := by
  unfold setCurrentPatterns
  by_cases h : pm.OrgPatterns.isEmpty && served.isEmpty
  · simp [h]
  · have hs := scanOrgDeletes_no_error env policyPath
      (buildNewMap pm served []) pm.OrgPatterns pm
    simp [h, hs]

/-- The pattern-deletion loop of `UpdatePatternPolicies` never reports an
error, whatever the file-system does. -/
theorem updateDeleteMissing_no_error (env : PMEnv) (policyPath org : String)
    (defs : List (String × Pattern)) (keys : List String) (pm : PatternManager) :
    (updateDeleteMissing env policyPath org defs keys pm).2.2 = none := by
  induction keys generalizing pm with
  | nil => rfl
  | cons k ks ih =>
      unfold updateDeleteMissing
      by_cases h : foundInDefs env defs k
      · simp [h, ih]
      · simp [h, deletePattern, ih]

/-- Counterexample for C4: a file-system error while deleting an existing
entry's policy files before regeneration on a hash change does abort
`UpdatePatternPolicies` with an error, contradicting the claim that no
deletion error causes it to return an error. -/
theorem deletion_error_aborts_update_cex :
    (updatePatternPolicies testEnvDeleteFail pmOne "o1" [("p1", patTwo)] "pp").2.2 =
      some "unable to delete policy files, error disk error" := by decide

/-- C4 amended: file-system errors while deleting an org's policy files
(`deleteOrg`) or a pattern's policy files (`deletePattern`) are logged and
the pass continues: `SetCurrentPatterns` never returns an error, and
neither the org-deletion path nor the pattern-deletion loop of
`UpdatePatternPolicies` returns an error; only a failure while deleting an
existing entry's files before regeneration on a hash change aborts
`UpdatePatternPolicies`. -/
theorem deletion_errors_not_propagated (env : PMEnv) (pm : PatternManager)
    (served : List ServedPattern) (org policyPath : String)
    (keys : List String) (defs : List (String × Pattern))
    (horg : hasOrg pm org = true) :
    (setCurrentPatterns env pm served policyPath).2.2 = none ∧
    (updatePatternPolicies env pm org [] policyPath).2.2 = none ∧
    (updateDeleteMissing env policyPath org defs keys pm).2.2 = none := by
  refine ⟨setCurrentPatterns_no_error env pm served policyPath, ?_,
    updateDeleteMissing_no_error env policyPath org defs keys pm⟩
  unfold updatePatternPolicies
  simp [horg, deleteOrg]

/-- Witness for C4 amended, in an environment where every deletion
primitive fails. -/
theorem deletion_errors_not_propagated_witness :
    (setCurrentPatterns testEnvDeleteFail pmOne [] "pp").2.2 = none ∧
    (updatePatternPolicies testEnvDeleteFail pmOne "o1" [] "pp").2.2 = none ∧
    (updateDeleteMissing testEnvDeleteFail "pp" "o1" [] ["p1"] pmOne).2.2 = none :=
  deletion_errors_not_propagated testEnvDeleteFail pmOne [] "o1" "pp" ["p1"] []
    (by decide)

/-- Counterexample for C5: when policy-file creation fails the pass does
return an error, but the affected entry is not left in its pre-update
state.  For the freshly served pattern of `pmNil` (pre-update entry nil)
the map retains the newly materialized entry, and for the changed pattern
of `pmOne` the map retains the entry already rewritten to the new
Pattern, Hash and Updated stamp with an emptied file-name list. -/
theorem creation_failure_state_cex :
    getEntry pmNil "o1" "p1" = some none ∧
    (updatePatternPolicies testEnvCreateFail pmNil "o1" [("p1", patOne)] "pp").2.2.isSome
      = true ∧
    getEntry (updatePatternPolicies testEnvCreateFail pmNil "o1"
        [("p1", patOne)] "pp").1 "o1" "p1" =
      some (some (PatternEntry.mk patOne 1000 [2] [])) ∧
    getEntry pmOne "o1" "p1" = some (some entryOne) ∧
    (updatePatternPolicies testEnvCreateFail pmOne "o1" [("p1", patTwo)] "pp").2.2.isSome
      = true ∧
    getEntry (updatePatternPolicies testEnvCreateFail pmOne "o1"
        [("p1", patTwo)] "pp").1 "o1" "p1" =
      some (some (PatternEntry.mk patTwo 1000 [4] [])) := by decide

/-- C5 amended: a policy-file creation failure during
`UpdatePatternPolicies` aborts the pass with an error, but the affected
`PatternEntry` is left in its post-update state rather than its pre-update
state: the entry is stored in the map before its files are created, so the
map retains the newly materialized entry (new-pattern case) or the entry
already updated to the new pattern and hash (changed-pattern case), each
carrying exactly the policy file names created before the failure. -/
theorem creation_failure_aborts (env : PMEnv) :
    (∀ pm org patternId policyPath pattern npe cerr,
      hasOrg pm org = true →
      (∀ k ∈ ((lookupA pm.OrgPatterns org).getD []).map Prod.fst,
        foundInDefs env [(patternId, pattern)] k = true) →
      getEntry pm org (env.getId patternId) = some none →
      newPatternEntry env pattern = .ok npe →
      (createPolicyFiles env npe patternId pattern policyPath org).2.2 = some cerr →
      updatePatternPolicies env pm org [(patternId, pattern)] policyPath =
        (setEntry pm org (env.getId patternId)
            (some (createPolicyFiles env npe patternId pattern policyPath org).1),
         (createPolicyFiles env npe patternId pattern policyPath org).2.1,
         some ("unable to create policy files, error " ++ cerr))) ∧
    (∀ pm org patternId policyPath pattern pe newHash cerr,
      hasOrg pm org = true →
      (∀ k ∈ ((lookupA pm.OrgPatterns org).getD []).map Prod.fst,
        foundInDefs env [(patternId, pattern)] k = true) →
      getEntry pm org (env.getId patternId) = some (some pe) →
      hashPattern env pattern = .ok newHash →
      pe.Hash ≠ newHash →
      (deleteAllPolicyFiles env pe.PolicyFileNames).2 = none →
      (createPolicyFiles env (updateEntry env pe pattern newHash) patternId pattern
          policyPath org).2.2 = some cerr →
      updatePatternPolicies env pm org [(patternId, pattern)] policyPath =
        (setEntry pm org (env.getId patternId)
            (some (createPolicyFiles env (updateEntry env pe pattern newHash)
              patternId pattern policyPath org).1),
         (deleteAllPolicyFiles env pe.PolicyFileNames).1 ++
           (createPolicyFiles env (updateEntry env pe pattern newHash) patternId
             pattern policyPath org).2.1,
         some ("unable to create policy files, error " ++ cerr))) := by
  constructor
  · intro pm org patternId policyPath pattern npe cerr horg hkeys hnil hnew hfail
    unfold updatePatternPolicies
    simp only [horg, if_true, List.isEmpty_cons, Bool.false_eq_true, if_false]
    rw [updateDeleteMissing_all_found env policyPath org _ _ pm hkeys]
    simp only
    unfold updateDefsLoop
    simp only [hnil, hnew, hfail, List.nil_append]
  · intro pm org patternId policyPath pattern pe newHash cerr horg hkeys hpe hhash
      hne hdel hfail
    unfold updatePatternPolicies
    simp only [horg, if_true, List.isEmpty_cons, Bool.false_eq_true, if_false]
    rw [updateDeleteMissing_all_found env policyPath org _ _ pm hkeys]
    simp only
    unfold updateDefsLoop
    simp only [hpe, hhash, if_neg hne, hdel, hfail, List.nil_append]

/-- Witness for C5 amended at the concrete failing environment, covering
the new-pattern and the changed-pattern scenario. -/
theorem creation_failure_aborts_witness :
    updatePatternPolicies testEnvCreateFail pmNil "o1" [("p1", patOne)] "pp" =
      (setEntry pmNil "o1" "p1"
          (some (createPolicyFiles testEnvCreateFail
            (PatternEntry.mk patOne 1000 [2] [])
            "p1" patOne "pp" "o1").1),
       (createPolicyFiles testEnvCreateFail
          (PatternEntry.mk patOne 1000 [2] [])
          "p1" patOne "pp" "o1").2.1,
       some ("unable to create policy files, error " ++
         "error creating policy file, error disk error")) ∧
    updatePatternPolicies testEnvCreateFail pmOne "o1" [("p1", patTwo)] "pp" =
      (setEntry pmOne "o1" "p1"
          (some (createPolicyFiles testEnvCreateFail
            (updateEntry testEnvCreateFail entryOne patTwo [4]) "p1" patTwo
            "pp" "o1").1),
       (deleteAllPolicyFiles testEnvCreateFail entryOne.PolicyFileNames).1 ++
         (createPolicyFiles testEnvCreateFail
           (updateEntry testEnvCreateFail entryOne patTwo [4]) "p1" patTwo
           "pp" "o1").2.1,
       some ("unable to create policy files, error " ++
         "error creating policy file, error disk error")) :=
  ⟨(creation_failure_aborts testEnvCreateFail).1 pmNil "o1" "p1" "pp" patOne
      (PatternEntry.mk patOne 1000 [2] [])
      "error creating policy file, error disk error"
      (by decide) (by decide) (by decide) (by decide) (by decide),
   (creation_failure_aborts testEnvCreateFail).2 pmOne "o1" "p1" "pp" patTwo
      entryOne [4] "error creating policy file, error disk error"
      (by decide) (by decide) (by decide) (by decide) (by decide) (by decide)
      (by decide)⟩

/-- The policy-file creation loop only appends file names: the pattern
and hash fields of the entry are untouched. -/
theorem createPolicyFilesLoop_fields (env : PMEnv) (policyPath org : String)
    (pols : List Policy) :
    ∀ pe, (createPolicyFilesLoop env policyPath org pe pols).1.Pattern = pe.Pattern ∧
      (createPolicyFilesLoop env policyPath org pe pols).1.Hash = pe.Hash := by
  induction pols with
  | nil => intro pe; exact ⟨rfl, rfl⟩
  | cons pol rest ih =>
      intro pe
      unfold createPolicyFilesLoop
      cases h : env.createPolicyFile policyPath org pol.headerName pol with
      | error e => exact ⟨rfl, rfl⟩
      | ok fn =>
          dsimp only
          have h2 := ih (addPolicyFileName pe fn)
          simpa [addPolicyFileName] using h2

/-- The function `createPolicyFiles` only appends file names to the entry. -/
theorem createPolicyFiles_fields (env : PMEnv) (pe : PatternEntry)
    (patternId : String) (pattern : Pattern) (policyPath org : String) :
    (createPolicyFiles env pe patternId pattern policyPath org).1.Pattern = pe.Pattern ∧
    (createPolicyFiles env pe patternId pattern policyPath org).1.Hash = pe.Hash := by
  unfold createPolicyFiles
  cases h : env.convertToPolicies patternId pattern with
  | error e => exact ⟨rfl, rfl⟩
  | ok pols => exact createPolicyFilesLoop_fields env policyPath org pols pe

/-- A successfully materialized entry satisfies the hash invariant. -/
theorem newPatternEntry_hashOk (env : PMEnv) (p : Pattern) (npe : PatternEntry)
    (h : newPatternEntry env p = .ok npe) : entryHashOk env npe := by
  unfold newPatternEntry at h
  cases hh : hashPattern env p with
  | error e => rw [hh] at h; exact absurd h (by simp)
  | ok hs =>
      rw [hh] at h
      injection h with h
      subst h
      unfold entryHashOk
      simpa using hh

/-- Storing an invariant-satisfying entry preserves the manager-wide hash
invariant. -/
theorem pmHashInv_setEntry (env : PMEnv) (pm : PatternManager)
    (org pat : String) (pe : PatternEntry)
    (hinv : pmHashInv env pm) (hpe : entryHashOk env pe) :
    pmHashInv env (setEntry pm org pat (some pe)) := by
  intro o om ho p q hq
  unfold setEntry at ho
  cases hl : lookupA pm.OrgPatterns org with
  | some orgMap =>
      rw [hl] at ho
      dsimp only at ho
      by_cases ho2 : org = o
      · subst ho2
        rw [lookupA_setA_self] at ho
        injection ho with ho
        subst ho
        by_cases hp : pat = p
        · subst hp
          rw [lookupA_setA_self] at hq
          injection hq with hq
          injection hq with hq
          subst hq
          exact hpe
        · rw [lookupA_setA_ne _ _ _ _ hp] at hq
          exact hinv org orgMap hl p q hq
      · rw [lookupA_setA_ne _ _ _ _ ho2] at ho
        exact hinv o om ho p q hq
  | none =>
      rw [hl] at ho
      dsimp only at ho
      by_cases ho2 : org = o
      · subst ho2
        rw [lookupA_setA_self] at ho
        injection ho with ho
        subst ho
        by_cases hp : pat = p
        · subst hp
          rw [lookupA_setA_self] at hq
          injection hq with hq
          injection hq with hq
          subst hq
          exact hpe
        · rw [lookupA_setA_ne _ _ _ _ hp] at hq
          simp [lookupA, setA] at hq
      · rw [lookupA_setA_ne _ _ _ _ ho2] at ho
        exact hinv o om ho p q hq

/-- Deleting an org preserves the hash invariant. -/
theorem pmHashInv_deleteOrg (env : PMEnv) (pm : PatternManager)
    (policyPath org : String) (hinv : pmHashInv env pm) :
    pmHashInv env (deleteOrg env pm policyPath org).1 := by
  intro o om ho p q hq
  unfold deleteOrg at ho
  dsimp only at ho
  rw [lookupA_eraseA] at ho
  by_cases h : org = o
  · simp [h] at ho
  · rw [if_neg h] at ho
    exact hinv o om ho p q hq

/-- Deleting a pattern preserves the hash invariant. -/
theorem pmHashInv_deletePattern (env : PMEnv) (pm : PatternManager)
    (policyPath org pat : String) (hinv : pmHashInv env pm) :
    pmHashInv env (deletePattern env pm policyPath org pat).1 := by
  intro o om ho p q hq
  unfold deletePattern at ho
  cases hl : lookupA pm.OrgPatterns org with
  | none => rw [hl] at ho; exact hinv o om ho p q hq
  | some orgMap =>
      rw [hl] at ho
      dsimp only at ho
      by_cases h : org = o
      · subst h
        rw [lookupA_setA_self] at ho
        injection ho with ho
        subst ho
        rw [lookupA_eraseA] at hq
        by_cases h2 : pat = p
        · simp [h2] at hq
        · rw [if_neg h2] at hq
          exact hinv org orgMap hl p q hq
      · rw [lookupA_setA_ne _ _ _ _ h] at ho
        exact hinv o om ho p q hq

/-- The pattern-deletion loop of `SetCurrentPatterns` preserves the hash
invariant. -/
theorem scanPatternDeletes_inv (env : PMEnv) (policyPath org : String)
    (newOrgMap : List (String × Option PatternEntry)) (pats : List String) :
    ∀ pm, pmHashInv env pm →
      pmHashInv env (scanPatternDeletes env policyPath org newOrgMap pats pm).1 := by
  induction pats with
  | nil => intro pm h; exact h
  | cons pat rest ih =>
      intro pm h
      unfold scanPatternDeletes
      by_cases hc : (lookupA newOrgMap pat).isSome
      · simp only [hc, if_true]
        exact ih pm h
      · simp only [hc, Bool.false_eq_true, if_false]
        have h1 := pmHashInv_deletePattern env pm policyPath org pat h
        cases herr : (deletePattern env pm policyPath org pat).2.2 with
        | some e => simpa [herr] using h1
        | none => simpa [herr] using ih _ h1

/-- The org-deletion phase of `SetCurrentPatterns` preserves the hash
invariant. -/
theorem scanOrgDeletes_inv (env : PMEnv) (policyPath : String)
    (newMap : List (String × List (String × Option PatternEntry)))
    (orgs : List (String × List (String × Option PatternEntry))) :
    ∀ pm, pmHashInv env pm →
      pmHashInv env (scanOrgDeletes env policyPath newMap orgs pm).1 := by
  induction orgs with
  | nil => intro pm h; exact h
  | cons o rest ih =>
      obtain ⟨org0, orgMap0⟩ := o
      intro pm h
      unfold scanOrgDeletes
      cases hl : lookupA newMap org0 with
      | none =>
          have h1 := pmHashInv_deleteOrg env pm policyPath org0 h
          cases herr : (deleteOrg env pm policyPath org0).2.2 with
          | some e => simpa [hl, herr] using h1
          | none => simpa [hl, herr] using ih _ h1
      | some nm =>
          have h1 := scanPatternDeletes_inv env policyPath org0 nm
            (orgMap0.map Prod.fst) pm h
          cases herr : (scanPatternDeletes env policyPath org0 nm
              (orgMap0.map Prod.fst) pm).2.2 with
          | some e => simpa [hl, herr] using h1
          | none => simpa [hl, herr] using ih _ h1

/-- Every entry stored in the map built by the first phase of
`SetCurrentPatterns` is copied from the previous state, so the hash
invariant carries over. -/
theorem buildNewMap_inv (env : PMEnv) (pm : PatternManager)
    (hinv : pmHashInv env pm) :
    ∀ (served : List ServedPattern)
      (acc : List (String × List (String × Option PatternEntry))),
      (∀ o om, lookupA acc o = some om → orgMapHashOk env om) →
      ∀ o om, lookupA (buildNewMap pm served acc) o = some om →
        orgMapHashOk env om := by
  intro served
  induction served with
  | nil =>
      intro acc hacc o om hlo
      exact hacc o om (by simpa [buildNewMap] using hlo)
  | cons sp rest ih =>
      intro acc hacc
      unfold buildNewMap
      dsimp only
      refine ih _ ?_
      intro o om ho
      have hval : ∀ q, (if hasPattern pm sp.Org sp.Pattern then
          (getEntry pm sp.Org sp.Pattern).getD none else none) = some q →
          entryHashOk env q := by
        intro q hq
        by_cases hp : hasPattern pm sp.Org sp.Pattern
        · rw [if_pos hp] at hq
          unfold getEntry at hq
          cases hl : lookupA pm.OrgPatterns sp.Org with
          | none => rw [hl] at hq; simp at hq
          | some om0 =>
              rw [hl] at hq
              dsimp only at hq
              cases hl2 : lookupA om0 sp.Pattern with
              | none => rw [hl2] at hq; simp at hq
              | some v =>
                  rw [hl2] at hq
                  simp only [Option.getD_some] at hq
                  subst hq
                  exact hinv sp.Org om0 hl sp.Pattern q hl2
        · rw [if_neg hp] at hq
          exact absurd hq (by simp)
      by_cases hc : (lookupA acc sp.Org).isSome
      · simp only [hc, if_true] at ho
        by_cases ho2 : sp.Org = o
        · subst ho2
          rw [lookupA_setA_self] at ho
          injection ho with ho
          subst ho
          intro p q hpq
          by_cases hp2 : sp.Pattern = p
          · subst hp2
            rw [lookupA_setA_self] at hpq
            injection hpq with hpq
            exact hval q hpq
          · rw [lookupA_setA_ne _ _ _ _ hp2] at hpq
            cases hli : lookupA acc sp.Org with
            | none => rw [hli] at hpq; simp [lookupA] at hpq
            | some im =>
                rw [hli] at hpq
                exact hacc sp.Org im hli p q (by simpa using hpq)
        · rw [lookupA_setA_ne _ _ _ _ ho2] at ho
          exact hacc o om ho
      · simp only [hc, Bool.false_eq_true, if_false] at ho
        by_cases ho2 : sp.Org = o
        · subst ho2
          rw [lookupA_setA_self] at ho
          injection ho with ho
          subst ho
          intro p q hpq
          by_cases hp2 : sp.Pattern = p
          · subst hp2
            rw [lookupA_setA_self] at hpq
            injection hpq with hpq
            exact hval q hpq
          · rw [lookupA_setA_ne _ _ _ _ hp2] at hpq
            rw [lookupA_setA_self] at hpq
            simp [lookupA] at hpq
        · rw [lookupA_setA_ne _ _ _ _ ho2] at ho
          rw [lookupA_setA_ne _ _ _ _ ho2] at ho
          exact hacc o om ho

/-- The method `SetCurrentPatterns` preserves the hash invariant. -/
theorem setCurrentPatterns_inv (env : PMEnv) (pm : PatternManager)
    (served : List ServedPattern) (policyPath : String)
    (hinv : pmHashInv env pm) :
    pmHashInv env (setCurrentPatterns env pm served policyPath).1 := by
  unfold setCurrentPatterns
  by_cases h : pm.OrgPatterns.isEmpty && served.isEmpty
  · simpa [h] using hinv
  · simp only [h, Bool.false_eq_true, if_false]
    have hscan := scanOrgDeletes_inv env policyPath (buildNewMap pm served [])
      pm.OrgPatterns pm hinv
    cases herr : (scanOrgDeletes env policyPath (buildNewMap pm served [])
        pm.OrgPatterns pm).2.2 with
    | some e => simpa [herr] using hscan
    | none =>
        simp only [herr]
        intro o om ho p q hq
        exact buildNewMap_inv env pm hinv served []
          (by intro o2 om2 h2; simp [lookupA] at h2) o om ho p q hq

/-- The pattern-deletion loop of `UpdatePatternPolicies` preserves the
hash invariant. -/
theorem updateDeleteMissing_inv (env : PMEnv) (policyPath org : String)
    (defs : List (String × Pattern)) (keys : List String) :
    ∀ pm, pmHashInv env pm →
      pmHashInv env (updateDeleteMissing env policyPath org defs keys pm).1 := by
  induction keys with
  | nil => intro pm h; exact h
  | cons k ks ih =>
      intro pm h
      unfold updateDeleteMissing
      by_cases hc : foundInDefs env defs k
      · simp only [hc, if_true]
        exact ih pm h
      · simp only [hc, Bool.false_eq_true, if_false]
        have h1 := pmHashInv_deletePattern env pm policyPath org k h
        cases herr : (deletePattern env pm policyPath org k).2.2 with
        | some e => simpa [herr] using h1
        | none => simpa [herr] using ih _ h1

/-- The main loop of `UpdatePatternPolicies` preserves the hash
invariant: new entries are materialized with a fresh hash of their
pattern, and changed entries have pattern and hash replaced together. -/
theorem updateDefsLoop_inv (env : PMEnv) (policyPath org : String)
    (defs : List (String × Pattern)) :
    ∀ pm, pmHashInv env pm →
      pmHashInv env (updateDefsLoop env policyPath org defs pm).1 := by
  induction defs with
  | nil => intro pm h; exact h
  | cons d rest ih =>
      obtain ⟨pid, pat⟩ := d
      intro pm h
      unfold updateDefsLoop
      cases hge : getEntry pm org (env.getId pid) with
      | none => exact ih pm h
      | some entry =>
          cases entry with
          | none =>
              cases hnew : newPatternEntry env pat with
              | error e => exact h
              | ok npe =>
                  dsimp only
                  have hok : entryHashOk env
                      (createPolicyFiles env npe pid pat policyPath org).1 := by
                    have hfields := createPolicyFiles_fields env npe pid pat policyPath org
                    have hnpe := newPatternEntry_hashOk env pat npe hnew
                    unfold entryHashOk at hnpe ⊢
                    rw [hfields.1, hfields.2]
                    exact hnpe
                  have hset := pmHashInv_setEntry env pm org (env.getId pid) _ h hok
                  cases herr : (createPolicyFiles env npe pid pat policyPath org).2.2 with
                  | some e => simpa [herr] using hset
                  | none => simpa [herr] using ih _ hset
          | some pe =>
              cases hh : hashPattern env pat with
              | error e => exact h
              | ok newHash =>
                  dsimp only
                  by_cases heq : pe.Hash = newHash
                  · simp only [heq, if_true]
                    exact ih pm h
                  · simp only [heq, if_false]
                    cases hd : (deleteAllPolicyFiles env pe.PolicyFileNames).2 with
                    | some e => simpa [hd] using h
                    | none =>
                        simp only [hd]
                        have hok : entryHashOk env
                            (createPolicyFiles env (updateEntry env pe pat newHash)
                              pid pat policyPath org).1 := by
                          have hfields := createPolicyFiles_fields env
                            (updateEntry env pe pat newHash) pid pat policyPath org
                          unfold entryHashOk
                          rw [hfields.1, hfields.2]
                          simpa [updateEntry] using hh
                        have hset := pmHashInv_setEntry env pm org (env.getId pid) _ h hok
                        cases herr : (createPolicyFiles env
                            (updateEntry env pe pat newHash) pid pat policyPath
                            org).2.2 with
                        | some e => simpa [herr] using hset
                        | none => simpa [herr] using ih _ hset

/-- The method `UpdatePatternPolicies` preserves the hash invariant. -/
theorem updatePatternPolicies_inv (env : PMEnv) (pm : PatternManager)
    (org : String) (defs : List (String × Pattern)) (policyPath : String)
    (hinv : pmHashInv env pm) :
    pmHashInv env (updatePatternPolicies env pm org defs policyPath).1 := by
  unfold updatePatternPolicies
  by_cases horg : hasOrg pm org
  · simp only [horg, if_true]
    by_cases hdefs : defs.isEmpty
    · simp only [hdefs, if_true]
      exact pmHashInv_deleteOrg env pm policyPath org hinv
    · simp only [hdefs, Bool.false_eq_true, if_false]
      have h1 := updateDeleteMissing_inv env policyPath org defs
        (((lookupA pm.OrgPatterns org).getD []).map Prod.fst) pm hinv
      cases herr : (updateDeleteMissing env policyPath org defs
          (((lookupA pm.OrgPatterns org).getD []).map Prod.fst) pm).2.2 with
      | some e => simpa [herr] using h1
      | none =>
          simp only [herr]
          exact updateDefsLoop_inv env policyPath org defs _ h1
  · simp only [horg, Bool.false_eq_true, if_false]
    exact hinv

/-- C3: in every Pattern Manager state reachable by any sequence of
`SetCurrentPatterns` and `UpdatePatternPolicies` calls, every live
(non-nil) entry's `Hash` equals the SHA3-256 digest of the JSON
serialization of its `Pattern`; the invariant is established by
`NewPatternEntry` and preserved by `UpdateEntry`, which replaces pattern
and hash together. -/
theorem pattern_hash_invariant (env : PMEnv) (pm : PatternManager)
    (h : PMReachable env pm) : pmHashInv env pm := by
  induction h with
  | init =>
      intro o om h1 p pe h2
      simp [newPatternManager, lookupA] at h1
  | step hreach hstep ih =>
      cases hstep with
      | set served policyPath => exact setCurrentPatterns_inv env _ served policyPath ih
      | update org defs policyPath =>
          exact updatePatternPolicies_inv env _ org defs policyPath ih

/-- Witness for C3: the invariant evaluated on a state reached by a
served-set change followed by an update that materializes the pattern. -/
theorem pattern_hash_invariant_witness :
    pmHashInv testEnv (updatePatternPolicies testEnv
      (setCurrentPatterns testEnv newPatternManager
        [ServedPattern.mk "o1" "p1"] "pp").1 "o1" [("p1", patOne)] "pp").1 :=
  pattern_hash_invariant testEnv _
    (PMReachable.step
      (PMReachable.step PMReachable.init
        (PMStep.set newPatternManager [ServedPattern.mk "o1" "p1"] "pp"))
      (PMStep.update (setCurrentPatterns testEnv newPatternManager
        [ServedPattern.mk "o1" "p1"] "pp").1 "o1" [("p1", patOne)] "pp"))

end Anax
